import Mathlib

/-!
Verification of the LineDevs bot core (src/index.cjs, the v3.1.1 section):
account linking, token metering and moderation over the Postgres-backed
`users` table.

Modelling conventions:
* The `users` table is a `List UserRow`; `discord_id` is the primary key, so
  `INSERT .. ON CONFLICT (discord_id) DO UPDATE` is modelled by `upsertUser`,
  which replaces the (unique) row with a matching key and otherwise appends.
* JavaScript objects handed to `upsertUser` may lack fields; they are modelled
  by `JsUser`, whose fields are `Option`-wrapped ("`none` = field absent"),
  and the destructuring defaults of the source `upsertUser` are applied by
  `applyDefaults`.  Nullable SQL columns are `Option` inside that.
* All wall-clock reads inside one handler (`Date.now()`, `new Date()`) are
  modelled as a single instant `now : Int` (epoch milliseconds).
* External HTTP calls are modelled by their observable outcome (`HttpResult`):
  a parsed body, a non-OK response, or a thrown transport error.
-/

namespace LineDevs

/-- A row of the `users` table (schema from the `CREATE TABLE users` statement).
`tokens`, `last_token_reset` and `flags` are always written by the code as
non-null values; `roblox_id`, `roblox_username`, `banned_until` and
`linked_at` are nullable. Timestamps are epoch milliseconds. -/
structure UserRow where
  discord_id : String
  roblox_id : Option String
  roblox_username : Option String
  tokens : Int
  last_token_reset : Int
  flags : Int
  banned_until : Option Int
  linked_at : Option Int
deriving DecidableEq, Repr

/-- A JavaScript object passed to `upsertUser`: each field other than
`discord_id` may be absent (`none`). For nullable columns the present value
is itself an `Option`. -/
structure JsUser where
  discord_id : String
  roblox_id : Option (Option String) := none
  roblox_username : Option (Option String) := none
  tokens : Option Int := none
  last_token_reset : Option Int := none
  flags : Option Int := none
  banned_until : Option (Option Int) := none
  linked_at : Option (Option Int) := none
deriving DecidableEq, Repr

/-- The destructuring defaults of the source `upsertUser`:
`roblox_id=null, roblox_username=null, tokens=15, last_token_reset=new Date(),
flags=0, banned_until=null, linked_at=new Date()`; `new Date()` is the
upsert-time clock `now`. -/
def applyDefaults (a : JsUser) (now : Int) : UserRow :=
  { discord_id := a.discord_id
    roblox_id := a.roblox_id.getD none
    roblox_username := a.roblox_username.getD none
    tokens := a.tokens.getD 15
    last_token_reset := a.last_token_reset.getD now
    flags := a.flags.getD 0
    banned_until := a.banned_until.getD none
    linked_at := a.linked_at.getD (some now) }

/-- View a stored row as the JavaScript object returned by a
`SELECT * FROM users` query: every column is present (nulls included). -/
def UserRow.toJs (r : UserRow) : JsUser :=
  { discord_id := r.discord_id
    roblox_id := some r.roblox_id
    roblox_username := some r.roblox_username
    tokens := some r.tokens
    last_token_reset := some r.last_token_reset
    flags := some r.flags
    banned_until := some r.banned_until
    linked_at := some r.linked_at }

/-- `SELECT * FROM users WHERE discord_id=$1` (first row or null). -/
def getUserByDiscordId (db : List UserRow) (id : String) : Option UserRow :=
  db.find? fun r => r.discord_id == id

/-- `SELECT * FROM users WHERE roblox_id=$1` (first row or null). -/
def getUserByRobloxId (db : List UserRow) (rid : String) : Option UserRow :=
  db.find? fun r => r.roblox_id == some rid

/-- `INSERT INTO users(...) VALUES(...) ON CONFLICT (discord_id) DO UPDATE SET ...`:
`discord_id` is the primary key, so at most one row matches; replace it,
otherwise append the new row. -/
def upsertUser (db : List UserRow) (a : JsUser) (now : Int) : List UserRow :=
  match db with
  | [] => [applyDefaults a now]
  | r :: rs =>
    if r.discord_id == a.discord_id then applyDefaults a now :: rs
    else r :: upsertUser rs a now

/-- `DELETE FROM users WHERE discord_id=$1` (the `!logout` command). -/
def logoutUser (db : List UserRow) (id : String) : List UserRow :=
  db.filter fun r => r.discord_id != id

/-- Read a possibly-absent nullable field the way JavaScript truthiness does:
absent and null both read as null. -/
def jsOpt (x : Option (Option α)) : Option α := x.getD none

/-- JavaScript `u.banned_until && new Date(u.banned_until) > new Date()`:
true iff the field holds a timestamp strictly in the future. -/
def bannedActive (b : Option Int) (now : Int) : Bool :=
  match b with
  | some t => decide (now < t)
  | none => false

/-- `js string contains substring`: leading-segment check for `hasSeg`. -/
def leadEq : List Char → List Char → Bool
  | [], _ => true
  | _ :: _, [] => false
  | a :: as, b :: bs => a == b && leadEq as bs

/-- Does `needle` occur as a contiguous segment of `hay`? -/
def hasSeg (needle : List Char) : List Char → Bool
  | [] => leadEq needle []
  | c :: rest => leadEq needle (c :: rest) || hasSeg needle rest

/-- JavaScript `hay.includes(needle)`: substring containment. -/
def strIncludes (hay needle : String) : Bool := hasSeg needle.data hay.data

/-! ## Token metering (`/ai` command, lines 425-435; `!tokens`, lines 372-380) -/

/-- Outcome of one `/ai` token spend. -/
inductive ConsumeResult where
  | ok (remaining : Int)
  | suspended (untilTs : Int)
  | exhausted
deriving DecidableEq, Repr

/-- The fresh in-memory object
`{ discord_id, tokens: 15, last_token_reset: new Date() }` created when the
requester has no stored row (lines 374 and 429). -/
def freshUser (id : String) (now : Int) : JsUser :=
  { discord_id := id, tokens := some 15, last_token_reset := some now }

/-- Lines 428-431 of `/ai` (identical to lines 373-376 of `!tokens`):
read or create the row, then apply daily rotation — if
`Date.now() - last > 24h` (strictly), set tokens to 15, stamp the reset time
and write through.  Returns the in-memory object and the updated table. -/
def rotatePhase (db : List UserRow) (id : String) (now : Int) :
    JsUser × List UserRow :=
  let p :=
    match getUserByDiscordId db id with
    | some r => (r.toJs, db)
    | none =>
      let u := freshUser id now
      (u, upsertUser db u now)
  let u := p.1
  let last := u.last_token_reset.getD 0
  if now - last > 24 * 60 * 60 * 1000 then
    let u2 := { u with tokens := some 15, last_token_reset := some now }
    (u2, upsertUser p.2 u2 now)
  else
    (u, p.2)

/-- Lines 433-435 of `/ai`: the balance check and decrement that follow the
suspension gate.  `(u.tokens || 0) <= 0` fails with the exhausted outcome;
otherwise decrement, persist the full record, and report the new remaining. -/
def consumeRest (db1 : List UserRow) (u : JsUser) (now : Int) :
    ConsumeResult × List UserRow :=
  let t := u.tokens.getD 0
  if t ≤ 0 then (ConsumeResult.exhausted, db1)
  else
    let u2 := { u with tokens := some (t - 1) }
    (ConsumeResult.ok (t - 1), upsertUser db1 u2 now)

/-- The `/ai` handler's token-metering core (lines 425-435): rotation, then
the suspension gate (`u.banned_until && new Date(u.banned_until) > new Date()`
replies with the exact suspension end), then balance check and decrement. -/
def consumeToken (db : List UserRow) (id : String) (now : Int) :
    ConsumeResult × List UserRow :=
  let p := rotatePhase db id now
  match jsOpt p.1.banned_until with
  | some b =>
    if now < b then (ConsumeResult.suspended b, p.2)
    else consumeRest p.2 p.1 now
  | none => consumeRest p.2 p.1 now

/-- The `!tokens` handler (lines 372-380): same read/create and rotation as
`/ai`, then reports the in-memory `u.tokens`.  Rotation writes through even
on this read-style query. -/
def tokensPeek (db : List UserRow) (id : String) (now : Int) :
    Int × List UserRow :=
  let p := rotatePhase db id now
  (p.1.tokens.getD 0, p.2)

/-! ## Moderation (banned-word block of `messageCreate`, lines 347-361) -/

/-- What one moderation hit reports: the new running flag count, whether the
threshold was reached now, and the suspension end if so. -/
structure ModResult where
  flags : Int
  suspendedNow : Bool
  untilTs : Option Int
deriving DecidableEq, Repr

/-- The in-memory object at the start of the moderation block: the stored row,
or the shell `{ discord_id, tokens: 15, flags: 0 }` (line 349). -/
def modRead (db : List UserRow) (id : String) : JsUser :=
  match getUserByDiscordId db id with
  | some r => r.toJs
  | none => { discord_id := id, tokens := some 15, flags := some 0 }

/-- The moderation block (lines 347-361), i.e. `onMatch`: bump
`u.flags = (u.flags || 0) + 1`, persist; if the new count reaches 5, set
`banned_until = now + 2 days` and persist again (the Discord timeout is an
external side effect of the caller). -/
def modBlock (db : List UserRow) (id : String) (now : Int) :
    ModResult × List UserRow :=
  let u := modRead db id
  let f := u.flags.getD 0 + 1
  let u1 := { u with flags := some f }
  let db1 := upsertUser db u1 now
  if f ≥ 5 then
    let untilT := now + 2 * 24 * 60 * 60 * 1000
    let u2 := { u1 with banned_until := some (some untilT) }
    ({ flags := f, suspendedNow := true, untilTs := some untilT },
     upsertUser db1 u2 now)
  else
    ({ flags := f, suspendedNow := false, untilTs := none }, db1)

/-- Observable effects of the moderation block when the flag-bump write may
fail: whether the warning reply was delivered (with the shown count), the
final table, and whether the outer catch of `messageCreate` logged an error. -/
structure ModEffect where
  warnReply : Option Int
  db : List UserRow
  errLogged : Bool
deriving DecidableEq, Repr

/-- The moderation block with a fallible flag-bump upsert.  In the source the
`await upsertUser(u)` on line 351 precedes the `message.reply` on line 353;
a rejected query propagates to the outer `catch` (lines 406-408), which logs
the error — the reply is skipped and no row was written. -/
def modBlockF (db : List UserRow) (id : String) (now : Int)
    (upsertFails : Bool) : ModEffect :=
  let u := modRead db id
  let f := u.flags.getD 0 + 1
  let u1 := { u with flags := some f }
  if upsertFails then { warnReply := none, db := db, errLogged := true }
  else
    let db1 := upsertUser db u1 now
    if f ≥ 5 then
      let untilT := now + 2 * 24 * 60 * 60 * 1000
      let u2 := { u1 with banned_until := some (some untilT) }
      { warnReply := some f, db := upsertUser db1 u2 now, errLogged := false }
    else { warnReply := some f, db := db1, errLogged := false }

/-! ## Account linking (`agree_register` button, lines 456-472;
`done_verification` button, lines 475-490) -/

/-- The pre-linked identity reported by verify.eryn.io. -/
structure LinkedInfo where
  robloxId : String
  robloxUsername : String
deriving DecidableEq, Repr

/-- Outcome of the `agree_register` button. -/
inductive LinkResult where
  | conflict (holder : String)
  | linkedOk (name : String)
  | showModal
deriving DecidableEq, Repr

/-- An entry of the in-memory `pendingVerifications` map. -/
structure Pending where
  robloxId : String
  robloxName : String
  verificationKey : String
deriving DecidableEq, Repr

/-- Outcome of the `done_verification` button. -/
inductive ConfirmResult where
  | noPending
  | keyNotFound (key : String)
  | conflict (holder : String)
  | confirmedOk (name : String)
deriving DecidableEq, Repr

/-- Did the confirm succeed? -/
def ConfirmResult.isConfirmedOk : ConfirmResult → Bool
  | ConfirmResult.confirmedOk _ => true
  | _ => false

/-- `pendingVerifications.get(id)` over an association-list model of the Map. -/
def lookupPending (ps : List (String × Pending)) (id : String) :
    Option Pending :=
  (ps.find? fun p => p.fst == id).map Prod.snd

/-- `pendingVerifications.delete(id)`. -/
def erasePending (ps : List (String × Pending)) (id : String) :
    List (String × Pending) :=
  ps.filter fun p => p.fst != id

/-- The full record written on a successful link (lines 464 and 483):
`{ discord_id, roblox_id, roblox_username, tokens: 15,
last_token_reset: new Date(), flags: 0, banned_until: null,
linked_at: new Date() }`. -/
def linkedRecord (id rid rname : String) (now : Int) : JsUser :=
  { discord_id := id
    roblox_id := some (some rid)
    roblox_username := some (some rname)
    tokens := some 15
    last_token_reset := some now
    flags := some 0
    banned_until := some none
    linked_at := some (some now) }

/-- The `agree_register` button (lines 456-472): if verify.eryn.io reports a
pre-linked identity, check whether another requester already holds it
(`existing && existing.discord_id !== interaction.user.id` rejects with a
conflict naming the holder); otherwise write the linked record.  With no
pre-linked identity, show the manual modal. -/
def agreeRegister (db : List UserRow) (id : String)
    (linked : Option LinkedInfo) (now : Int) : LinkResult × List UserRow :=
  match linked with
  | none => (LinkResult.showModal, db)
  | some l =>
    match getUserByRobloxId db l.robloxId with
    | some existing =>
      if existing.discord_id ≠ id then
        (LinkResult.conflict existing.discord_id, db)
      else
        (LinkResult.linkedOk l.robloxUsername,
         upsertUser db (linkedRecord id l.robloxId l.robloxUsername now) now)
    | none =>
      (LinkResult.linkedOk l.robloxUsername,
       upsertUser db (linkedRecord id l.robloxId l.robloxUsername now) now)

/-- The `done_verification` button (lines 475-490): with no pending session,
reply "No pending verification found."; otherwise re-fetch the profile
description `desc` and test `desc && desc.includes(verificationKey)`.  On a
match, the same uniqueness check as the direct path guards the write; on
success the linked record is written and the pending entry deleted. -/
def doneVerification (db : List UserRow) (ps : List (String × Pending))
    (id : String) (desc : String) (now : Int) :
    ConfirmResult × List UserRow × List (String × Pending) :=
  match lookupPending ps id with
  | none => (ConfirmResult.noPending, db, ps)
  | some pend =>
    if (desc != "") && strIncludes desc pend.verificationKey then
      match getUserByRobloxId db pend.robloxId with
      | some existing =>
        if existing.discord_id ≠ id then
          (ConfirmResult.conflict existing.discord_id, db, ps)
        else
          (ConfirmResult.confirmedOk pend.robloxName,
           upsertUser db (linkedRecord id pend.robloxId pend.robloxName now) now,
           erasePending ps id)
      | none =>
        (ConfirmResult.confirmedOk pend.robloxName,
         upsertUser db (linkedRecord id pend.robloxId pend.robloxName now) now,
         erasePending ps id)
    else (ConfirmResult.keyNotFound pend.verificationKey, db, ps)

/-! ## The operations of the system, as one step type over the `users` table -/

/-- Every operation of the source that touches the `users` table. External
inputs (the pre-linked lookup result, the pending map, the fetched profile
description, the clock) are carried as data of the operation. -/
inductive Op where
  | flagHit (id : String) (now : Int)
  | consume (id : String) (now : Int)
  | peek (id : String) (now : Int)
  | startLink (id : String) (linked : Option LinkedInfo) (now : Int)
  | confirmLink (id : String) (ps : List (String × Pending)) (desc : String)
      (now : Int)
  | logout (id : String)

/-- The effect of one operation on the `users` table. -/
def applyOp (op : Op) (db : List UserRow) : List UserRow :=
  match op with
  | Op.flagHit id now => (modBlock db id now).2
  | Op.consume id now => (consumeToken db id now).2
  | Op.peek id now => (tokensPeek db id now).2
  | Op.startLink id linked now => (agreeRegister db id linked now).2
  | Op.confirmLink id ps desc now => (doneVerification db ps id desc now).2.1
  | Op.logout id => logoutUser db id

/-! ## Well-formedness: primary-key uniqueness and external-identity uniqueness -/

/-- Two distinct rows are compatible: distinct primary keys, and they never
hold the same non-null external identity. -/
abbrev RowsOk (r s : UserRow) : Prop :=
  r.discord_id ≠ s.discord_id ∧
  (r.roblox_id = none ∨ r.roblox_id ≠ s.roblox_id)

/-- Table invariant: `discord_id` is a primary key and at most one row holds
any given non-null `roblox_id`. -/
abbrev Wf (db : List UserRow) : Prop := List.Pairwise RowsOk db

/-! ## Identity resolver (lines 235-279) -/

/-- Observable outcome of one outbound HTTP call: a parsed body, a non-OK
status, or a thrown transport error. -/
inductive HttpResult (β : Type) where
  | success (body : β)
  | notOk (code : Int)
  | threw

/-- One entry of the Roblox username-lookup response (`js.data[0]`). -/
structure RobloxLookupUser where
  id : Int
  username : Option String
deriving DecidableEq, Repr

/-- Body of the username-lookup response: `data` may be absent. -/
structure UsersLookupBody where
  data : Option (List RobloxLookupUser)
deriving DecidableEq, Repr

/-- `resolveRobloxUsername` (lines 235-251): non-OK response returns null;
missing or empty `data` returns null; a thrown fetch/parse error is caught,
logged and returns null; otherwise the first entry. One attempt, no retry. -/
def resolveRobloxUsername (r : HttpResult UsersLookupBody) :
    Option RobloxLookupUser :=
  match r with
  | HttpResult.success body =>
    match body.data with
    | none => none
    | some [] => none
    | some (u :: _) => some u
  | HttpResult.notOk _ => none
  | HttpResult.threw => none

/-- Body of the profile fetch: `description` may be absent. -/
structure ProfileBody where
  description : Option String
deriving DecidableEq, Repr

/-- `getRobloxProfileDescription` (lines 253-265): non-OK returns the empty
string, a thrown error is caught and returns the empty string, otherwise
`js.description || ''`. One attempt, no retry. -/
def getRobloxProfileDescription (r : HttpResult ProfileBody) : String :=
  match r with
  | HttpResult.success body => body.description.getD ""
  | HttpResult.notOk _ => ""
  | HttpResult.threw => ""

/-- Body of the verify.eryn.io response. -/
structure ErynBody where
  status : Option String
  robloxId : Int
  robloxUsername : String
deriving DecidableEq, Repr

/-- `checkDiscordRobloxLinked` (lines 268-279): non-OK returns null, a thrown
error is caught and returns null; a body whose `status` is not the string
`ok` returns null; otherwise the identity, with `String(js.robloxId)`
stringifying the numeric id. One attempt, no retry. -/
def checkDiscordRobloxLinked (r : HttpResult ErynBody) : Option LinkedInfo :=
  match r with
  | HttpResult.success body =>
    if body.status == some "ok" then
      some { robloxId := toString body.robloxId
             robloxUsername := body.robloxUsername }
    else none
  | HttpResult.notOk _ => none
  | HttpResult.threw => none

/-- Flag count currently stored for a requester (0 when no row exists, as the
source reads it with `(u.flags || 0)`). -/
def storedFlags (db : List UserRow) (id : String) : Int :=
  match getUserByDiscordId db id with
  | some r => r.flags
  | none => 0

/-- Suspension end currently stored for a requester (null when no row exists). -/
def storedBanned (db : List UserRow) (id : String) : Option Int :=
  match getUserByDiscordId db id with
  | some r => r.banned_until
  | none => none

/-! ## Basic lemmas about the table model -/

@[simp]
theorem applyDefaults_discord_id (a : JsUser) (now : Int) :
    (applyDefaults a now).discord_id = a.discord_id := rfl

@[simp]
theorem toJs_discord_id (r : UserRow) : r.toJs.discord_id = r.discord_id := rfl

theorem applyDefaults_toJs (r : UserRow) (now : Int) :
    applyDefaults r.toJs now = r := rfl

theorem getUserByDiscordId_key {db : List UserRow} {id : String} {r : UserRow}
    (h : getUserByDiscordId db id = some r) : r.discord_id = id := by
  have := List.find?_some h
  simpa using this

theorem getUserByDiscordId_mem {db : List UserRow} {id : String} {r : UserRow}
    (h : getUserByDiscordId db id = some r) : r ∈ db :=
  List.mem_of_find?_eq_some h

theorem getUserByRobloxId_key {db : List UserRow} {x : String} {r : UserRow}
    (h : getUserByRobloxId db x = some r) : r.roblox_id = some x := by
  have := List.find?_some h
  simpa using this

theorem getUserByRobloxId_mem {db : List UserRow} {x : String} {r : UserRow}
    (h : getUserByRobloxId db x = some r) : r ∈ db :=
  List.mem_of_find?_eq_some h

/-- Looking up the upserted key finds exactly the resolved record. -/
theorem getUserByDiscordId_upsert_self (db : List UserRow) (a : JsUser)
    (now : Int) :
    getUserByDiscordId (upsertUser db a now) a.discord_id =
      some (applyDefaults a now) := by
  induction db with
  | nil => simp [upsertUser, getUserByDiscordId]
  | cons r rs ih =>
    by_cases hk : r.discord_id = a.discord_id
    · simp [upsertUser, getUserByDiscordId, hk]
    · simpa [upsertUser, getUserByDiscordId, hk] using ih

/-- Upserting one key leaves every other key's lookup unchanged. -/
theorem getUserByDiscordId_upsert_other {db : List UserRow} {a : JsUser}
    {now : Int} {id : String} (h : id ≠ a.discord_id) :
    getUserByDiscordId (upsertUser db a now) id = getUserByDiscordId db id := by
  induction db with
  | nil => simp [upsertUser, getUserByDiscordId, h.symm]
  | cons r rs ih =>
    by_cases hk : r.discord_id = a.discord_id
    · have hr : ¬ r.discord_id = id := fun hc => h (hc.symm.trans hk)
      simp [upsertUser, getUserByDiscordId, hk, h.symm, hr]
    · by_cases hr : r.discord_id = id
      · simp [upsertUser, getUserByDiscordId, hk, hr, h]
      · simpa [upsertUser, getUserByDiscordId, hk, hr] using ih

/-- Any member of an upserted table is the new record or an old row. -/
theorem mem_upsert {db : List UserRow} {a : JsUser} {now : Int} {s : UserRow}
    (h : s ∈ upsertUser db a now) : s = applyDefaults a now ∨ s ∈ db := by
  induction db with
  | nil => simpa [upsertUser] using h
  | cons r rs ih =>
    by_cases hk : r.discord_id = a.discord_id
    · simp only [upsertUser, hk, beq_self_eq_true, if_true] at h
      rcases List.mem_cons.mp h with h1 | h1
      · exact Or.inl h1
      · exact Or.inr (List.mem_cons_of_mem _ h1)
    · simp only [upsertUser, beq_iff_eq, hk, if_false] at h
      rcases List.mem_cons.mp h with h1 | h1
      · exact Or.inr (by simp [h1])
      · rcases ih h1 with h2 | h2
        · exact Or.inl h2
        · exact Or.inr (List.mem_cons_of_mem _ h2)

/-- Under `Wf`, all rows holding the same non-null external identity agree on
the primary key (there is at most one such row). -/
theorem wf_rid_unique {db : List UserRow} {p q : UserRow}
    (hwf : Wf db) (hp : p ∈ db) (hq : q ∈ db) {x : String}
    (hpx : p.roblox_id = some x) (hqx : q.roblox_id = some x) :
    p.discord_id = q.discord_id := by
  induction db with
  | nil => cases hp
  | cons r rs ih =>
    rcases List.pairwise_cons.mp hwf with ⟨hr, hrs⟩
    rcases List.mem_cons.mp hp with hp1 | hp2
    · rcases List.mem_cons.mp hq with hq1 | hq2
      · rw [hp1, hq1]
      · subst hp1
        rcases (hr q hq2).2 with h | h
        · rw [hpx] at h; cases h
        · rw [hpx, hqx] at h; cases h rfl
    · rcases List.mem_cons.mp hq with hq1 | hq2
      · subst hq1
        rcases (hr p hp2).2 with h | h
        · rw [hqx] at h; cases h
        · rw [hqx, hpx] at h; cases h rfl
      · exact ih hrs hp2 hq2

/-- An upsert preserves `Wf` when its resolved record either carries no
external identity, or carries one that only the upserted key already holds. -/
def SafeArg (db : List UserRow) (a : JsUser) (now : Int) : Prop :=
  (applyDefaults a now).roblox_id = none ∨
  ∀ r ∈ db, r.roblox_id = (applyDefaults a now).roblox_id →
    r.discord_id = a.discord_id

theorem safeArg_sub {r : UserRow} {rs : List UserRow} {a : JsUser} {now : Int}
    (h : SafeArg (r :: rs) a now) : SafeArg rs a now := by
  rcases h with h | h
  · exact Or.inl h
  · exact Or.inr fun s hs hrid => h s (List.mem_cons_of_mem _ hs) hrid

theorem wf_upsert {db : List UserRow} {a : JsUser} {now : Int}
    (hwf : Wf db) (hsafe : SafeArg db a now) : Wf (upsertUser db a now) := by
  induction db with
  | nil => simp [upsertUser, Wf, RowsOk]
  | cons r rs ih =>
    rcases List.pairwise_cons.mp hwf with ⟨hr, hrs⟩
    by_cases hk : r.discord_id = a.discord_id
    · simp only [upsertUser, hk, beq_self_eq_true, if_true]
      refine List.pairwise_cons.mpr ⟨?_, hrs⟩
      intro s hs
      refine ⟨?_, ?_⟩
      · have hky : r.discord_id ≠ s.discord_id := (hr s hs).1
        simpa [hk] using hky
      · rcases hsafe with hnone | hall
        · exact Or.inl hnone
        · by_cases hn : (applyDefaults a now).roblox_id = none
          · exact Or.inl hn
          · refine Or.inr fun heq => ?_
            have hs2 : s.discord_id = a.discord_id :=
              hall s (List.mem_cons_of_mem _ hs) heq.symm
            exact (hr s hs).1 (by rw [hk, hs2])
    · simp only [upsertUser, beq_iff_eq, hk, if_false]
      refine List.pairwise_cons.mpr ⟨?_, ih hrs (safeArg_sub hsafe)⟩
      intro s hs
      rcases mem_upsert hs with h1 | h1
      · subst h1
        refine ⟨by simpa using hk, ?_⟩
        by_cases hrn : r.roblox_id = none
        · exact Or.inl hrn
        · rcases hsafe with hnone | hall
          · exact Or.inr (by rw [hnone]; exact hrn)
          · refine Or.inr fun heq => ?_
            exact hk (hall r (List.mem_cons_self _ _) heq)
      · exact hr s h1

theorem safeArg_of_none {db : List UserRow} {a : JsUser} {now : Int}
    (h : (applyDefaults a now).roblox_id = none) : SafeArg db a now :=
  Or.inl h

/-- Writing back a record whose external identity equals that of the row
already stored at the same key is safe. -/
theorem safeArg_writeback {db : List UserRow} {id : String} {row : UserRow}
    {a : JsUser} {now : Int}
    (hwf : Wf db) (hfind : getUserByDiscordId db id = some row)
    (hkey : a.discord_id = id)
    (hrid : (applyDefaults a now).roblox_id = row.roblox_id) :
    SafeArg db a now := by
  cases hx : row.roblox_id with
  | none => exact Or.inl (hrid.trans hx)
  | some x =>
    refine Or.inr fun r hrm hrrid => ?_
    have hrx : r.roblox_id = some x := by rw [hrrid, hrid, hx]
    have hkeys := wf_rid_unique hwf hrm (getUserByDiscordId_mem hfind) hrx hx
    rw [hkeys, getUserByDiscordId_key hfind, hkey]

/-- Writing an external identity no row currently holds is safe. -/
theorem safeArg_guard_none {db : List UserRow} {x : String} {a : JsUser}
    {now : Int}
    (hnone : getUserByRobloxId db x = none)
    (hrid : (applyDefaults a now).roblox_id = some x) : SafeArg db a now := by
  refine Or.inr fun r hrm hrrid => ?_
  have hall : ∀ s ∈ db, ¬ ((s.roblox_id == some x) = true) :=
    List.find?_eq_none.mp hnone
  have := hall r hrm
  rw [hrrid, hrid] at this
  simp at this

/-- Writing an external identity whose (unique) current holder is the
upserted key itself is safe. -/
theorem safeArg_guard_self {db : List UserRow} {x : String} {e : UserRow}
    {a : JsUser} {now : Int}
    (hwf : Wf db) (hfound : getUserByRobloxId db x = some e)
    (hkey : e.discord_id = a.discord_id)
    (hrid : (applyDefaults a now).roblox_id = some x) : SafeArg db a now := by
  refine Or.inr fun r hrm hrrid => ?_
  have hex : e.roblox_id = some x := getUserByRobloxId_key hfound
  have hrx : r.roblox_id = some x := by rw [hrrid, hrid]
  have := wf_rid_unique hwf hrm (getUserByRobloxId_mem hfound) hrx hex
  rw [this, hkey]

theorem wf_logout {db : List UserRow} {id : String} (hwf : Wf db) :
    Wf (logoutUser db id) :=
  List.Pairwise.sublist (List.filter_sublist _) hwf

/-! ## `Wf` is preserved by every operation -/

/-- The read-or-create-plus-rotation phase keeps the table well-formed, hands
back an object keyed by the requester, and the object's external identity is
either null or exactly the identity of the row now stored for the requester. -/
theorem rotatePhase_spec (db : List UserRow) (id : String) (now : Int)
    (hwf : Wf db) :
    Wf (rotatePhase db id now).2 ∧
    (rotatePhase db id now).1.discord_id = id ∧
    (jsOpt (rotatePhase db id now).1.roblox_id = none ∨
     ∃ row1, getUserByDiscordId (rotatePhase db id now).2
         (rotatePhase db id now).1.discord_id = some row1 ∧
       row1.roblox_id = jsOpt (rotatePhase db id now).1.roblox_id) := by
  cases hfind : getUserByDiscordId db id with
  | none =>
    have hcond : ¬ (now - ((freshUser id now).last_token_reset.getD 0) >
        24 * 60 * 60 * 1000) := by
      simp [freshUser]
    simp only [rotatePhase, hfind, freshUser] at hcond ⊢
    rw [if_neg hcond]
    refine ⟨wf_upsert hwf (safeArg_of_none rfl), rfl, Or.inl rfl⟩
  | some r =>
    have hkey : r.discord_id = id := getUserByDiscordId_key hfind
    simp only [rotatePhase, hfind]
    by_cases hrot : now - (r.toJs.last_token_reset.getD 0) >
        24 * 60 * 60 * 1000
    · rw [if_pos hrot]
      have hrid : (applyDefaults
          { r.toJs with tokens := some 15, last_token_reset := some now }
          now).roblox_id = r.roblox_id := rfl
      have hsafe : SafeArg db
          { r.toJs with tokens := some 15, last_token_reset := some now }
          now :=
        safeArg_writeback hwf hfind hkey hrid
      refine ⟨wf_upsert hwf hsafe, hkey,
        Or.inr ⟨applyDefaults
          { r.toJs with tokens := some 15, last_token_reset := some now } now,
          getUserByDiscordId_upsert_self db _ now, rfl⟩⟩
    · rw [if_neg hrot]
      refine ⟨hwf, hkey, Or.inr ⟨r, ?_, rfl⟩⟩
      show getUserByDiscordId db r.discord_id = some r
      rw [hkey]
      exact hfind

theorem wf_consumeRest {db1 : List UserRow} {u : JsUser} {now : Int}
    (hwf : Wf db1)
    (hprov : jsOpt u.roblox_id = none ∨
      ∃ row1, getUserByDiscordId db1 u.discord_id = some row1 ∧
        row1.roblox_id = jsOpt u.roblox_id) :
    Wf (consumeRest db1 u now).2 := by
  unfold consumeRest
  by_cases ht : u.tokens.getD 0 ≤ 0
  · simp only [ht, if_true]
    exact hwf
  · simp only [ht, if_false]
    rcases hprov with h | ⟨row1, hfind, hrid⟩
    · exact wf_upsert hwf (safeArg_of_none (by simpa [applyDefaults, jsOpt] using h))
    · exact wf_upsert hwf (safeArg_writeback hwf hfind rfl
        (by simpa [applyDefaults, jsOpt] using hrid.symm))

theorem wf_consumeToken {db : List UserRow} {id : String} {now : Int}
    (hwf : Wf db) : Wf (consumeToken db id now).2 := by
  obtain ⟨h1, _h2, h3⟩ := rotatePhase_spec db id now hwf
  simp only [consumeToken]
  split
  · split
    · exact h1
    · exact wf_consumeRest h1 h3
  · exact wf_consumeRest h1 h3

theorem wf_tokensPeek {db : List UserRow} {id : String} {now : Int}
    (hwf : Wf db) : Wf (tokensPeek db id now).2 :=
  (rotatePhase_spec db id now hwf).1

theorem wf_modBlock {db : List UserRow} {id : String} {now : Int}
    (hwf : Wf db) : Wf (modBlock db id now).2 := by
  simp only [modBlock, modRead]
  cases hfind : getUserByDiscordId db id with
  | none =>
    split
    · exact wf_upsert (wf_upsert hwf (safeArg_of_none rfl)) (safeArg_of_none rfl)
    · exact wf_upsert hwf (safeArg_of_none rfl)
  | some r =>
    have hkey : r.discord_id = id := getUserByDiscordId_key hfind
    split
    · refine wf_upsert (wf_upsert hwf ?_) ?_
      · exact safeArg_writeback hwf hfind hkey rfl
      · exact safeArg_writeback (wf_upsert hwf
          (safeArg_writeback hwf hfind hkey rfl))
          (getUserByDiscordId_upsert_self db _ now) rfl rfl
    · exact wf_upsert hwf (safeArg_writeback hwf hfind hkey rfl)

theorem wf_agreeRegister {db : List UserRow} {id : String}
    {linked : Option LinkedInfo} {now : Int}
    (hwf : Wf db) : Wf (agreeRegister db id linked now).2 := by
  cases linked with
  | none => exact hwf
  | some l =>
    simp only [agreeRegister]
    split
    · next e hfound =>
      split
      · exact hwf
      · next hne =>
        push_neg at hne
        exact wf_upsert hwf (safeArg_guard_self hwf hfound hne rfl)
    · next hfound => exact wf_upsert hwf (safeArg_guard_none hfound rfl)

theorem wf_doneVerification {db : List UserRow} {ps : List (String × Pending)}
    {id desc : String} {now : Int}
    (hwf : Wf db) : Wf (doneVerification db ps id desc now).2.1 := by
  simp only [doneVerification]
  split
  · exact hwf
  · next pend _hp =>
    split
    · split
      · next e hfound =>
        split
        · exact hwf
        · next hne =>
          push_neg at hne
          exact wf_upsert hwf (safeArg_guard_self hwf hfound hne rfl)
      · next hfound => exact wf_upsert hwf (safeArg_guard_none hfound rfl)
    · exact hwf

/-- Every operation of the system preserves the table invariant. -/
theorem wf_applyOp (op : Op) {db : List UserRow} (hwf : Wf db) :
    Wf (applyOp op db) := by
  cases op with
  | flagHit id now => exact wf_modBlock hwf
  | consume id now => exact wf_consumeToken hwf
  | peek id now => exact wf_tokensPeek hwf
  | startLink id linked now => exact wf_agreeRegister hwf
  | confirmLink id ps desc now => exact wf_doneVerification hwf
  | logout id => exact wf_logout hwf

/-- Under `Wf`, the lookup by external identity finds exactly the row known
to hold it. -/
theorem wf_getUserByRobloxId {db : List UserRow} {rowA : UserRow} {x : String}
    (hwf : Wf db) (hm : rowA ∈ db) (hx : rowA.roblox_id = some x) :
    getUserByRobloxId db x = some rowA := by
  induction db with
  | nil => cases hm
  | cons r rs ih =>
    rcases List.pairwise_cons.mp hwf with ⟨hr, hrs⟩
    rcases List.mem_cons.mp hm with h1 | h2
    · subst h1
      simp [getUserByRobloxId, List.find?_cons, hx]
    · have hhead : ¬ ((r.roblox_id == some x) = true) := by
        intro hc
        rw [beq_iff_eq] at hc
        rcases (hr rowA h2).2 with hn | hne
        · rw [hn] at hc; cases hc
        · exact hne (by rw [hc, hx])
      have := ih hrs h2
      simpa [getUserByRobloxId, List.find?_cons, hhead] using this

/-! ## The claims -/

/-- C1: Uniqueness of the external identity: if requester A's row holds
external identity X and B ≠ A, then B's linking attempt for X — via the
direct pre-linked path (`agree_register`) or the manual confirm path
(`done_verification`) — fails with a Conflict naming A, performs no write
(the table and the pending map are returned unchanged, so A's and B's
records are untouched); and every operation of the system preserves the
invariant that at most one row holds a given non-null external identity. -/
theorem c1_uniqueness :
    (∀ (db : List UserRow) (rowA : UserRow) (bId : String) (l : LinkedInfo)
       (now : Int),
       Wf db → rowA ∈ db → rowA.roblox_id = some l.robloxId →
       rowA.discord_id ≠ bId →
       agreeRegister db bId (some l) now =
         (LinkResult.conflict rowA.discord_id, db)) ∧
    (∀ (db : List UserRow) (ps : List (String × Pending)) (bId desc : String)
       (pend : Pending) (rowA : UserRow) (now : Int),
       Wf db → rowA ∈ db → rowA.roblox_id = some pend.robloxId →
       rowA.discord_id ≠ bId → lookupPending ps bId = some pend →
       ((desc != "") && strIncludes desc pend.verificationKey) = true →
       doneVerification db ps bId desc now =
         (ConfirmResult.conflict rowA.discord_id, db, ps)) ∧
    (∀ (op : Op) (db : List UserRow), Wf db → Wf (applyOp op db)) := by
  refine ⟨?_, ?_, fun op db hwf => wf_applyOp op hwf⟩
  · intro db rowA bId l now hwf hm hx hne
    have hfound := wf_getUserByRobloxId hwf hm hx
    simp [agreeRegister, hfound, hne]
  · intro db ps bId desc pend rowA now hwf hm hx hne hp hmkey
    have hfound := wf_getUserByRobloxId hwf hm hx
    simp [doneVerification, hp, hmkey, hfound, hne]

/-- A's stored row in the C1 witness scenario. -/
def c1rowA : UserRow :=
  { discord_id := "A", roblox_id := some "777", roblox_username := some "Al",
    tokens := 15, last_token_reset := 0, flags := 0, banned_until := none,
    linked_at := some 0 }

/-- B's pending session for A's external identity in the C1 witness. -/
def c1pend : Pending :=
  { robloxId := "777", robloxName := "Al", verificationKey := "K1" }

/-- C1 witness: with A = "A" holding identity 777, B = "B" is rejected with a
conflict naming A on both paths and the table is unchanged; the logout
operation preserves the invariant on this table. -/
theorem c1_uniqueness_witness :
    agreeRegister [c1rowA] "B"
        (some { robloxId := "777", robloxUsername := "Al" }) 5 =
      (LinkResult.conflict "A", [c1rowA]) ∧
    doneVerification [c1rowA] [("B", c1pend)] "B" "xxK1yy" 5 =
      (ConfirmResult.conflict "A", [c1rowA], [("B", c1pend)]) ∧
    Wf (applyOp (Op.logout "A") [c1rowA]) :=
  ⟨c1_uniqueness.1 [c1rowA] c1rowA "B" { robloxId := "777", robloxUsername := "Al" }
      5 (by decide) (by decide) (by decide) (by decide),
   c1_uniqueness.2.1 [c1rowA] [("B", c1pend)] "B" "xxK1yy" c1pend c1rowA 5
      (by decide) (by decide) (by decide) (by decide) (by decide) (by decide),
   c1_uniqueness.2.2 (Op.logout "A") [c1rowA] (by decide)⟩

/-- Looking up the upserted record under any name of its key. -/
theorem find_upsert_at {db : List UserRow} {a : JsUser} {now : Int}
    {id : String} (hkey : a.discord_id = id) :
    getUserByDiscordId (upsertUser db a now) id =
      some (applyDefaults a now) := by
  rw [← hkey]
  exact getUserByDiscordId_upsert_self db a now

/-- Full functional description of one moderation hit: the reported and
stored flag count go up by exactly one, a row exists afterwards, the
suspension signal fires exactly when the new count reaches 5, and then the
stored suspension end is `now + 48h` (otherwise it is untouched). -/
theorem modBlock_spec (db : List UserRow) (id : String) (now : Int) :
    (modBlock db id now).1.flags = storedFlags db id + 1 ∧
    storedFlags (modBlock db id now).2 id = storedFlags db id + 1 ∧
    (getUserByDiscordId (modBlock db id now).2 id).isSome = true ∧
    (modBlock db id now).1.suspendedNow =
      decide (storedFlags db id + 1 ≥ 5) ∧
    (modBlock db id now).1.untilTs =
      (if storedFlags db id + 1 ≥ 5 then some (now + 2 * 24 * 60 * 60 * 1000)
       else none) ∧
    storedBanned (modBlock db id now).2 id =
      (if storedFlags db id + 1 ≥ 5 then some (now + 2 * 24 * 60 * 60 * 1000)
       else storedBanned db id) := by
  cases hfind : getUserByDiscordId db id with
  | none =>
    have h1 : ¬ ((0 : Int) + 1 ≥ 5) := by norm_num
    simp [modBlock, modRead, hfind, storedFlags, storedBanned, h1,
      find_upsert_at, applyDefaults]
  | some r =>
    have hkeyr : r.discord_id = id := getUserByDiscordId_key hfind
    by_cases hf : r.flags + 1 ≥ 5
    · simp [modBlock, modRead, hfind, storedFlags, storedBanned, hf,
        UserRow.toJs, find_upsert_at, applyDefaults, hkeyr]
    · simp [modBlock, modRead, hfind, storedFlags, storedBanned, hf,
        UserRow.toJs, find_upsert_at, applyDefaults, hkeyr]

/-- C3: Moderation escalation: every `onMatch` (banned-word) call increments
the requester's stored flag count by exactly one, creating a shell record if
none exists; the suspension signal fires exactly when the new count reaches
the threshold 5, with the stored and reported suspension end equal to
`now + 48h` at that call; in particular, starting from no record, the fourth
call reports no suspension and the fifth reports suspension ending 48 hours
after the moment of the fifth call. -/
theorem c3_escalation :
    (∀ (db : List UserRow) (id : String) (now : Int),
      (modBlock db id now).1.flags = storedFlags db id + 1 ∧
      storedFlags (modBlock db id now).2 id = storedFlags db id + 1 ∧
      (getUserByDiscordId (modBlock db id now).2 id).isSome = true ∧
      (modBlock db id now).1.suspendedNow =
        decide (storedFlags db id + 1 ≥ 5) ∧
      (modBlock db id now).1.untilTs =
        (if storedFlags db id + 1 ≥ 5 then
          some (now + 2 * 24 * 60 * 60 * 1000) else none) ∧
      storedBanned (modBlock db id now).2 id =
        (if storedFlags db id + 1 ≥ 5 then
          some (now + 2 * 24 * 60 * 60 * 1000) else storedBanned db id)) ∧
    (∀ (id : String) (t1 t2 t3 t4 t5 : Int),
      (modBlock (modBlock (modBlock (modBlock ([] : List UserRow)
        id t1).2 id t2).2 id t3).2 id t4).1.suspendedNow = false ∧
      (modBlock (modBlock (modBlock (modBlock (modBlock ([] : List UserRow)
        id t1).2 id t2).2 id t3).2 id t4).2 id t5).1.suspendedNow = true ∧
      (modBlock (modBlock (modBlock (modBlock (modBlock ([] : List UserRow)
        id t1).2 id t2).2 id t3).2 id t4).2 id t5).1.flags = 5 ∧
      (modBlock (modBlock (modBlock (modBlock (modBlock ([] : List UserRow)
        id t1).2 id t2).2 id t3).2 id t4).2 id t5).1.untilTs =
        some (t5 + 2 * 24 * 60 * 60 * 1000)) := by
  refine ⟨fun db id now => modBlock_spec db id now, ?_⟩
  intro id t1 t2 t3 t4 t5
  have e0 : storedFlags ([] : List UserRow) id = 0 := rfl
  have e1 := (modBlock_spec [] id t1).2.1
  rw [e0] at e1
  have e2 := (modBlock_spec (modBlock [] id t1).2 id t2).2.1
  rw [e1] at e2
  have e3 := (modBlock_spec (modBlock (modBlock [] id t1).2 id t2).2
    id t3).2.1
  rw [e2] at e3
  have e4 := (modBlock_spec (modBlock (modBlock (modBlock [] id t1).2
    id t2).2 id t3).2 id t4).2.1
  rw [e3] at e4
  have f4 := (modBlock_spec (modBlock (modBlock (modBlock [] id t1).2
    id t2).2 id t3).2 id t4).2.2.2.1
  rw [e3] at f4
  norm_num at f4
  have s5 := modBlock_spec (modBlock (modBlock (modBlock (modBlock []
    id t1).2 id t2).2 id t3).2 id t4).2 id t5
  obtain ⟨g1, _, _, g4, g5, _⟩ := s5
  rw [e4] at g1 g4 g5
  norm_num at g1 g4 g5
  exact ⟨f4, g4, g1, g5⟩

/-- A stored row with an empty balance whose last reset lies in the past. -/
def c2row : UserRow :=
  { discord_id := "u", roblox_id := none, roblox_username := none,
    tokens := 0, last_token_reset := 0, flags := 0, banned_until := none,
    linked_at := none }

/-- C2 counterexample: at exactly 24 hours elapsed — which satisfies the
claim's "now minus last-reset is at least 24 hours" — with remaining = 0 and
no suspension, `consumeToken` returns the exhausted outcome and performs no
write, instead of succeeding with remaining = 14: the source tests the
elapsed time with a strict `>`, not `≥`. -/
theorem c2_counterexample :
    (86400000 : Int) - c2row.last_token_reset ≥ 24 * 60 * 60 * 1000 ∧
    c2row.tokens = 0 ∧ c2row.banned_until = none ∧
    consumeToken [c2row] "u" 86400000 =
      (ConsumeResult.exhausted, [c2row]) := by
  decide

/-- C2 (amended): daily quota rotation fires whenever now minus last-reset
strictly exceeds 24 hours: regardless of the stored balance (so before the
balance is evaluated) and with no active suspension, `consumeToken` resets
the quota to the default 15, stamps last-reset = now, then consumes one
token, succeeding with remaining = 14 and persisting exactly that; in
particular this holds for last-reset = now − 25h and remaining = 0. -/
theorem c2_rotation (db : List UserRow) (id : String) (row : UserRow)
    (now : Int)
    (hfind : getUserByDiscordId db id = some row)
    (hrot : now - row.last_token_reset > 24 * 60 * 60 * 1000)
    (hban : bannedActive row.banned_until now = false) :
    (consumeToken db id now).1 = ConsumeResult.ok 14 ∧
    getUserByDiscordId (consumeToken db id now).2 id =
      some { row with tokens := 14, last_token_reset := now } := by
  have hkeyr : row.discord_id = id := getUserByDiscordId_key hfind
  have hrp : rotatePhase db id now =
      ({ row.toJs with tokens := some 15, last_token_reset := some now },
       upsertUser db { row.toJs with tokens := some 15, last_token_reset := some now } now) := by
    simp only [rotatePhase, hfind, UserRow.toJs, Option.getD_some]
    rw [if_pos hrot]
  cases hb : row.banned_until with
  | none =>
    simp only [consumeToken, hrp, jsOpt, UserRow.toJs, hb, Option.getD_some,
      consumeRest]
    norm_num
    rw [find_upsert_at hkeyr]
    norm_num [applyDefaults]
  | some b =>
    have hnb : ¬ (now < b) := by
      rw [hb] at hban
      simpa [bannedActive] using hban
    simp only [consumeToken, hrp, jsOpt, UserRow.toJs, hb, Option.getD_some,
      consumeRest]
    rw [if_neg hnb]
    norm_num
    rw [find_upsert_at hkeyr]
    norm_num [applyDefaults]

/-- C2 witness: with last-reset = now − 25h and remaining = 0,
the spend succeeds with remaining 14 and persists the rotated row. -/
theorem c2_rotation_witness :
    (consumeToken [c2row] "u" 90000000).1 = ConsumeResult.ok 14 ∧
    getUserByDiscordId (consumeToken [c2row] "u" 90000000).2 "u" =
      some { c2row with tokens := 14, last_token_reset := 90000000 } :=
  c2_rotation [c2row] "u" c2row 90000000 (by decide) (by decide) (by decide)

/-- With no rotation due, no active suspension and a non-positive balance,
the spend fails with the exhausted outcome and writes nothing. -/
theorem consume_exhausted {db : List UserRow} {id : String} {row : UserRow}
    {now : Int}
    (hfind : getUserByDiscordId db id = some row)
    (htok : row.tokens ≤ 0)
    (hrot : ¬ (now - row.last_token_reset > 24 * 60 * 60 * 1000))
    (hban : bannedActive row.banned_until now = false) :
    consumeToken db id now = (ConsumeResult.exhausted, db) := by
  have hrp : rotatePhase db id now = (row.toJs, db) := by
    simp only [rotatePhase, hfind, UserRow.toJs, Option.getD_some]
    rw [if_neg hrot]
  cases hb : row.banned_until with
  | none =>
    simp only [consumeToken, hrp, jsOpt, UserRow.toJs, hb, Option.getD_some,
      consumeRest]
    rw [if_pos htok]
  | some b =>
    have hnb : ¬ (now < b) := by
      rw [hb] at hban
      simpa [bannedActive] using hban
    simp only [consumeToken, hrp, jsOpt, UserRow.toJs, hb, Option.getD_some,
      consumeRest]
    rw [if_neg hnb, if_pos htok]

/-- C4: Token exhaustion: for a requester with no active suspension and no
rotation due whose remaining balance is 1, the spend succeeds with
remaining = 0 and persists it; an immediately following spend within the
same 24-hour window (still no rotation, no suspension) fails with the
exhausted outcome and leaves the table — and so the zero balance — exactly
unchanged, never driving it below 0. -/
theorem c4_exhaustion (db : List UserRow) (id : String) (row : UserRow)
    (now now2 : Int)
    (hfind : getUserByDiscordId db id = some row)
    (htok : row.tokens = 1)
    (hrot : ¬ (now - row.last_token_reset > 24 * 60 * 60 * 1000))
    (hban : bannedActive row.banned_until now = false)
    (hrot2 : ¬ (now2 - row.last_token_reset > 24 * 60 * 60 * 1000))
    (hban2 : bannedActive row.banned_until now2 = false) :
    (consumeToken db id now).1 = ConsumeResult.ok 0 ∧
    getUserByDiscordId (consumeToken db id now).2 id =
      some { row with tokens := 0 } ∧
    consumeToken (consumeToken db id now).2 id now2 =
      (ConsumeResult.exhausted, (consumeToken db id now).2) := by
  have hkeyr : row.discord_id = id := getUserByDiscordId_key hfind
  have hrp : rotatePhase db id now = (row.toJs, db) := by
    simp only [rotatePhase, hfind, UserRow.toJs, Option.getD_some]
    rw [if_neg hrot]
  have h12 : (consumeToken db id now).1 = ConsumeResult.ok 0 ∧
      getUserByDiscordId (consumeToken db id now).2 id =
        some { row with tokens := 0 } := by
    cases hb : row.banned_until with
    | none =>
      simp only [consumeToken, hrp, jsOpt, UserRow.toJs, hb, Option.getD_some,
        consumeRest, htok]
      norm_num
      rw [find_upsert_at hkeyr]
      norm_num [applyDefaults]
    | some b =>
      have hnb : ¬ (now < b) := by
        rw [hb] at hban
        simpa [bannedActive] using hban
      simp only [consumeToken, hrp, jsOpt, UserRow.toJs, hb, Option.getD_some,
        consumeRest, htok]
      rw [if_neg hnb]
      norm_num
      rw [find_upsert_at hkeyr]
      norm_num [applyDefaults]
  refine ⟨h12.1, h12.2, ?_⟩
  exact consume_exhausted h12.2 (by norm_num) hrot2 hban2

/-- The row of the C4 witness: one remaining token. -/
def c4row : UserRow :=
  { discord_id := "u", roblox_id := none, roblox_username := none,
    tokens := 1, last_token_reset := 0, flags := 0, banned_until := none,
    linked_at := none }

/-- C4 witness: 1 → consume → ok 0 persisted; next consume in the same
window → exhausted, table unchanged. -/
theorem c4_exhaustion_witness :
    (consumeToken [c4row] "u" 1000).1 = ConsumeResult.ok 0 ∧
    getUserByDiscordId (consumeToken [c4row] "u" 1000).2 "u" =
      some { c4row with tokens := 0 } ∧
    consumeToken (consumeToken [c4row] "u" 1000).2 "u" 2000 =
      (ConsumeResult.exhausted, (consumeToken [c4row] "u" 1000).2) :=
  c4_exhaustion [c4row] "u" c4row 1000 2000 (by decide) (by decide)
    (by decide) (by decide) (by decide) (by decide)

/-- C5: Suspension gating: after the rotation phase, if the requester's
stored suspension end is set and strictly in the future, `consumeToken`
fails with the Suspended outcome reporting that exact timestamp and returns
the post-rotation table unchanged — the balance is never consulted (no
hypothesis on the balance is needed) and no token is decremented; when
additionally no rotation was due, the table is exactly the input table. -/
theorem c5_suspension :
    (∀ (db : List UserRow) (id : String) (now b : Int),
      jsOpt (rotatePhase db id now).1.banned_until = some b → now < b →
      consumeToken db id now =
        (ConsumeResult.suspended b, (rotatePhase db id now).2)) ∧
    (∀ (db : List UserRow) (id : String) (row : UserRow) (now b : Int),
      getUserByDiscordId db id = some row →
      ¬ (now - row.last_token_reset > 24 * 60 * 60 * 1000) →
      row.banned_until = some b → now < b →
      consumeToken db id now = (ConsumeResult.suspended b, db)) := by
  constructor
  · intro db id now b hb hlt
    simp only [consumeToken, hb]
    rw [if_pos hlt]
  · intro db id row now b hfind hrot hb hlt
    have hrp : rotatePhase db id now = (row.toJs, db) := by
      simp only [rotatePhase, hfind, UserRow.toJs, Option.getD_some]
      rw [if_neg hrot]
    simp only [consumeToken, hrp, jsOpt, UserRow.toJs, hb, Option.getD_some]
    rw [if_pos hlt]

/-- The row of the C5 witness: suspended until 500, five tokens left. -/
def c5row : UserRow :=
  { discord_id := "u", roblox_id := none, roblox_username := none,
    tokens := 5, last_token_reset := 0, flags := 0, banned_until := some 500,
    linked_at := none }

/-- C5 witness: at now = 400 < 500 the spend is rejected with the exact
suspension end and the table is unchanged, although five tokens remain. -/
theorem c5_suspension_witness :
    consumeToken [c5row] "u" 400 =
      (ConsumeResult.suspended 500, [c5row]) ∧
    consumeToken [c5row] "u" 450 =
      (ConsumeResult.suspended 500, (rotatePhase [c5row] "u" 450).2) :=
  ⟨c5_suspension.2 [c5row] "u" c5row 400 500 (by decide) (by decide)
      (by decide) (by decide),
   c5_suspension.1 [c5row] "u" 450 500 (by decide) (by decide)⟩

/-! ## Flag-count bookkeeping for C6 -/

theorem rotatePhase_key (db : List UserRow) (id : String) (now : Int) :
    (rotatePhase db id now).1.discord_id = id := by
  cases hfind : getUserByDiscordId db id with
  | none =>
    simp only [rotatePhase, hfind, freshUser]
    split <;> rfl
  | some r =>
    have hkeyr := getUserByDiscordId_key hfind
    simp only [rotatePhase, hfind]
    split <;> simpa [UserRow.toJs] using hkeyr

/-- Stored flag count after an upsert, for any key. -/
theorem storedFlags_upsert_if (db : List UserRow) (a : JsUser) (now : Int)
    (id2 : String) :
    storedFlags (upsertUser db a now) id2 =
      if id2 = a.discord_id then a.flags.getD 0 else storedFlags db id2 := by
  by_cases h : id2 = a.discord_id
  · rw [if_pos h, h]
    simp [storedFlags, getUserByDiscordId_upsert_self, applyDefaults]
  · rw [if_neg h]
    simp [storedFlags, getUserByDiscordId_upsert_other h]

/-- The rotation phase never changes any stored flag count, and the
in-memory object carries the acting requester's stored count. -/
theorem storedFlags_rotatePhase (db : List UserRow) (id : String) (now : Int) :
    (∀ id2, storedFlags (rotatePhase db id now).2 id2 = storedFlags db id2) ∧
    (rotatePhase db id now).1.flags.getD 0 = storedFlags db id := by
  cases hfind : getUserByDiscordId db id with
  | none =>
    have hcond : ¬ (now - ((freshUser id now).last_token_reset.getD 0) >
        24 * 60 * 60 * 1000) := by simp [freshUser]
    simp only [rotatePhase, hfind, freshUser] at hcond ⊢
    rw [if_neg hcond]
    constructor
    · intro id2
      rw [storedFlags_upsert_if]
      by_cases h : id2 = id
      · subst h
        simp [storedFlags, hfind]
      · simp [h]
    · simp [storedFlags, hfind]
  | some r =>
    have hkeyr := getUserByDiscordId_key hfind
    simp only [rotatePhase, hfind]
    by_cases hrot : now - (r.toJs.last_token_reset.getD 0) >
        24 * 60 * 60 * 1000
    · rw [if_pos hrot]
      constructor
      · intro id2
        rw [storedFlags_upsert_if]
        by_cases h : id2 = id
        · subst h
          simp [UserRow.toJs, hkeyr, storedFlags, hfind]
        · have h2 : ¬ (id2 = r.discord_id) := by rw [hkeyr]; exact h
          simp [UserRow.toJs, h2, h]
      · simp [UserRow.toJs, storedFlags, hfind]
    · rw [if_neg hrot]
      exact ⟨fun id2 => rfl, by simp [UserRow.toJs, storedFlags, hfind]⟩

/-- The balance-and-decrement phase never changes any stored flag count,
since it writes back exactly the flag value it read. -/
theorem storedFlags_consumeRest {db1 : List UserRow} {u : JsUser} {now : Int}
    (hfl : u.flags.getD 0 = storedFlags db1 u.discord_id) (id2 : String) :
    storedFlags (consumeRest db1 u now).2 id2 = storedFlags db1 id2 := by
  simp only [consumeRest]
  split
  · rfl
  · rw [storedFlags_upsert_if]
    by_cases h : id2 = u.discord_id
    · simp only [h, if_pos]
      rw [hfl]
    · simp [h]

/-- A token spend never changes any stored flag count. -/
theorem storedFlags_consumeToken (db : List UserRow) (id : String) (now : Int)
    (id2 : String) :
    storedFlags (consumeToken db id now).2 id2 = storedFlags db id2 := by
  obtain ⟨hall, hfl⟩ := storedFlags_rotatePhase db id now
  have hkey := rotatePhase_key db id now
  have hfl1 : (rotatePhase db id now).1.flags.getD 0 =
      storedFlags (rotatePhase db id now).2
        (rotatePhase db id now).1.discord_id := by
    rw [hkey, hall id]
    exact hfl
  simp only [consumeToken]
  split
  · split
    · exact hall id2
    · rw [storedFlags_consumeRest hfl1 id2]; exact hall id2
  · rw [storedFlags_consumeRest hfl1 id2]; exact hall id2

/-- A moderation hit leaves every other requester's flag count unchanged. -/
theorem storedFlags_modBlock_other {db : List UserRow} {id id2 : String}
    {now : Int} (h : id2 ≠ id) :
    storedFlags (modBlock db id now).2 id2 = storedFlags db id2 := by
  cases hfind : getUserByDiscordId db id with
  | none =>
    simp only [modBlock, modRead, hfind]
    split
    · rw [storedFlags_upsert_if, storedFlags_upsert_if]
      simp [h]
    · rw [storedFlags_upsert_if]
      simp [h]
  | some r =>
    have hkeyr := getUserByDiscordId_key hfind
    have h2 : ¬ (id2 = r.discord_id) := by rw [hkeyr]; exact h
    simp only [modBlock, modRead, hfind]
    split
    · rw [storedFlags_upsert_if, storedFlags_upsert_if]
      simp [UserRow.toJs, h2]
    · rw [storedFlags_upsert_if]
      simp [UserRow.toJs, h2]

/-- The stored row in the C6 counterexample: two flags, not yet linked. -/
def c6row : UserRow :=
  { discord_id := "b", roblox_id := none, roblox_username := none,
    tokens := 7, last_token_reset := 100, flags := 2, banned_until := none,
    linked_at := none }

/-- The pending session of the C6 counterexample. -/
def c6pend : Pending :=
  { robloxId := "777", robloxName := "Bee", verificationKey := "K1" }

/-- C6 counterexample: a requester with flag count 2 completes a successful
manual confirm (an operation of the system); the linking write stores
`flags: 0`, so the stored flag count decreases from 2 to 0, refuting the
claim that the flag count never decreases across every operation. -/
theorem c6_counterexample :
    storedFlags [c6row] "b" = 2 ∧
    (doneVerification [c6row] [("b", c6pend)] "b" "xxK1yy" 200).1 =
      ConfirmResult.confirmedOk "Bee" ∧
    storedFlags (applyOp
      (Op.confirmLink "b" [("b", c6pend)] "xxK1yy" 200) [c6row]) "b" = 0 := by
  decide

/-- C6 (amended): a requester's flag count never decreases under moderation
flagging, token consumption or balance peek (the metering operations write
back exactly the flag count they read, and a flag hit adds one); however a
successful link — direct or manual confirm — writes the flag count back to
0, and logout deletes the requester's record outright. -/
theorem c6_flags_amended :
    (∀ (db : List UserRow) (id id2 : String) (now : Int),
      storedFlags (applyOp (Op.flagHit id now) db) id2 ≥ storedFlags db id2) ∧
    (∀ (db : List UserRow) (id id2 : String) (now : Int),
      storedFlags (applyOp (Op.consume id now) db) id2 = storedFlags db id2) ∧
    (∀ (db : List UserRow) (id id2 : String) (now : Int),
      storedFlags (applyOp (Op.peek id now) db) id2 = storedFlags db id2) ∧
    (∀ (db : List UserRow) (id : String) (l : LinkedInfo) (now : Int)
       (name : String),
      (agreeRegister db id (some l) now).1 = LinkResult.linkedOk name →
      storedFlags (agreeRegister db id (some l) now).2 id = 0) ∧
    (∀ (db : List UserRow) (ps : List (String × Pending)) (id desc : String)
       (now : Int) (name : String),
      (doneVerification db ps id desc now).1 =
        ConfirmResult.confirmedOk name →
      storedFlags (doneVerification db ps id desc now).2.1 id = 0) ∧
    (∀ (db : List UserRow) (id : String),
      getUserByDiscordId (logoutUser db id) id = none) := by
  refine ⟨?_, ?_, ?_, ?_, ?_, ?_⟩
  · intro db id id2 now
    by_cases h : id2 = id
    · subst h
      have := (modBlock_spec db id2 now).2.1
      simp only [applyOp]
      omega
    · simp only [applyOp]
      rw [storedFlags_modBlock_other h]
  · intro db id id2 now
    exact storedFlags_consumeToken db id now id2
  · intro db id id2 now
    exact (storedFlags_rotatePhase db id now).1 id2
  · intro db id l now name h
    cases hfound : getUserByRobloxId db l.robloxId with
    | some e =>
      simp only [agreeRegister, hfound] at h ⊢
      by_cases hne : e.discord_id ≠ id
      · rw [if_pos hne] at h
        simp at h
      · rw [if_neg hne] at h ⊢
        rw [storedFlags_upsert_if]
        simp [linkedRecord]
    | none =>
      simp only [agreeRegister, hfound] at h ⊢
      rw [storedFlags_upsert_if]
      simp [linkedRecord]
  · intro db ps id desc now name h
    cases hp : lookupPending ps id with
    | none => simp [doneVerification, hp] at h
    | some pend =>
      by_cases hm : ((desc != "") && strIncludes desc pend.verificationKey)
        = true
      · simp only [doneVerification, hp, hm, if_true] at h ⊢
        cases hfound : getUserByRobloxId db pend.robloxId with
        | some e =>
          simp only [hfound] at h ⊢
          by_cases hne : e.discord_id ≠ id
          · rw [if_pos hne] at h
            simp at h
          · rw [if_neg hne] at h ⊢
            rw [storedFlags_upsert_if]
            simp [linkedRecord]
        | none =>
          simp only [hfound] at h ⊢
          rw [storedFlags_upsert_if]
          simp [linkedRecord]
      · simp [doneVerification, hp, hm] at h
  · intro db id
    rw [getUserByDiscordId, List.find?_eq_none]
    intro r hr
    have := List.of_mem_filter hr
    simpa using this

/-- C6 witness for the amended claim: the confirm drops the stored flag
count of "b" to 0, and logout removes the record. -/
theorem c6_flags_amended_witness :
    storedFlags (doneVerification [c6row] [("b", c6pend)] "b" "xxK1yy"
      200).2.1 "b" = 0 ∧
    getUserByDiscordId (logoutUser [c6row] "b") "b" = none :=
  ⟨c6_flags_amended.2.2.2.2.1 [c6row] [("b", c6pend)] "b" "xxK1yy" 200 "Bee"
      (by decide),
   c6_flags_amended.2.2.2.2.2 [c6row] "b"⟩

/-- The stored row in the C7 counterexample. -/
def c7row : UserRow :=
  { discord_id := "u", roblox_id := none, roblox_username := none,
    tokens := 9, last_token_reset := 0, flags := 1, banned_until := none,
    linked_at := none }

/-- C7 counterexample: when the flag-bump upsert raises, the error is caught
and logged by the outer catch of `messageCreate`, but the warning reply for
that flag is NOT delivered — refuting the claim that the reply is still
delivered when the persistence write fails. -/
theorem c7_counterexample :
    (modBlockF [c7row] "u" 0 true).errLogged = true ∧
    (modBlockF [c7row] "u" 0 true).warnReply = none ∧
    (modBlockF [c7row] "u" 0 true).db = [c7row] := by
  decide

/-- C7 (amended): when the persistence write for a moderation flag bump
fails, the failure is swallowed at the handler level — the outer catch logs
it, the process continues and no row is written — but the user-facing
warning reply for that flag is NOT delivered, because the reply follows the
awaited write; when the write succeeds, the warning reply is delivered with
the new running count. -/
theorem c7_swallowed_amended :
    (∀ (db : List UserRow) (id : String) (now : Int),
      modBlockF db id now true =
        { warnReply := none, db := db, errLogged := true }) ∧
    (∀ (db : List UserRow) (id : String) (now : Int),
      (modBlockF db id now false).warnReply =
        some (storedFlags db id + 1) ∧
      (modBlockF db id now false).errLogged = false) := by
  constructor
  · intro db id now
    rfl
  · intro db id now
    cases hfind : getUserByDiscordId db id with
    | none =>
      simp only [modBlockF, modRead, hfind, storedFlags, Option.getD_some,
        Bool.false_eq_true, if_false]
      constructor <;> split <;> rfl
    | some r =>
      simp only [modBlockF, modRead, hfind, storedFlags, UserRow.toJs,
        Option.getD_some, Bool.false_eq_true, if_false]
      constructor <;> split <;> rfl

/-- The already-linked row in the C8 counterexample (its confirm succeeded
earlier and the pending entry was erased). -/
def c8row : UserRow :=
  { discord_id := "b", roblox_id := some "777",
    roblox_username := some "Bee", tokens := 15, last_token_reset := 0,
    flags := 0, banned_until := some 3, linked_at := some 0 }

/-- C8 counterexample: with the pending map empty (as after a successful
confirm), pressing Done again — even with the previously correct token on
the profile — replies "No pending verification found.": a no-op, but an
explicit rejection rather than a success. -/
theorem c8_counterexample :
    doneVerification [c8row] [] "b" "xxK1yy" 10 =
      (ConfirmResult.noPending, [c8row], []) ∧
    (doneVerification [c8row] [] "b" "xxK1yy" 10).1.isConfirmedOk = false := by
  decide

/-- C8 (amended): invoking confirm with no pending session — in particular
after a prior successful confirm erased it — is a no-op rejection: the
handler replies that no pending verification exists, throws nothing, and
leaves the table and the pending map exactly unchanged. -/
theorem c8_noop (db : List UserRow) (ps : List (String × Pending))
    (id desc : String) (now : Int)
    (hp : lookupPending ps id = none) :
    doneVerification db ps id desc now = (ConfirmResult.noPending, db, ps) := by
  simp [doneVerification, hp]

/-- C8 witness: the already-linked requester's repeated Done press is the
no-op rejection. -/
theorem c8_noop_witness :
    doneVerification [c8row] [] "b" "someDesc" 11 =
      (ConfirmResult.noPending, [c8row], []) :=
  c8_noop [c8row] [] "b" "someDesc" 11 (by decide)

/-- C9: Identity-resolver fail-soft: each of the three resolver operations
is a total function of a single transport outcome (one attempt, no retries;
they neither receive nor return any domain state, so they have no side
effects on it, and being total Lean functions they never throw); on a
non-OK response, a thrown transport error, or missing response data they
return the domain-negative result — null for the two identity lookups and
the empty string for the profile field — and on success exactly the parsed
field. -/
theorem c9_failsoft :
    (∀ c : Int, resolveRobloxUsername (HttpResult.notOk c) = none) ∧
    resolveRobloxUsername HttpResult.threw = none ∧
    (∀ b : UsersLookupBody, resolveRobloxUsername (HttpResult.success b) =
      (match b.data with
       | some (u :: _) => some u
       | _ => none)) ∧
    (∀ c : Int, getRobloxProfileDescription (HttpResult.notOk c) = "") ∧
    getRobloxProfileDescription HttpResult.threw = "" ∧
    (∀ b : ProfileBody, getRobloxProfileDescription (HttpResult.success b) =
      b.description.getD "") ∧
    (∀ c : Int, checkDiscordRobloxLinked (HttpResult.notOk c) = none) ∧
    checkDiscordRobloxLinked HttpResult.threw = none ∧
    (∀ b : ErynBody, b.status ≠ some "ok" →
      checkDiscordRobloxLinked (HttpResult.success b) = none) := by
  refine ⟨fun c => rfl, rfl, ?_, fun c => rfl, rfl, fun b => rfl,
    fun c => rfl, rfl, ?_⟩
  · intro b
    cases hd : b.data with
    | none => simp [resolveRobloxUsername, hd]
    | some l => cases l <;> simp [resolveRobloxUsername, hd]
  · intro b hs
    simp [checkDiscordRobloxLinked, hs]

/-- C9 witness: a 500 response, a thrown fetch, and a non-ok registry status
each yield the negative result. -/
theorem c9_failsoft_witness :
    resolveRobloxUsername (HttpResult.notOk 500) = none ∧
    getRobloxProfileDescription HttpResult.threw = "" ∧
    checkDiscordRobloxLinked (HttpResult.success
      { status := some "error", robloxId := 7, robloxUsername := "x" }) =
      none :=
  ⟨c9_failsoft.1 500, c9_failsoft.2.2.2.2.1,
   c9_failsoft.2.2.2.2.2.2.2.2
     { status := some "error", robloxId := 7, robloxUsername := "x" }
     (by decide)⟩

/-- C10: Frame effect of a flag increment: for an existing stored user whose
new flag count stays below the threshold 5, the moderation write changes
only the `flags` field of their row — `roblox_id`, `roblox_username`,
`tokens`, `last_token_reset`, `banned_until` and `linked_at` are written
back with exactly the values that were read — and every other requester's
lookup is untouched. -/
theorem c10_frame (db : List UserRow) (id : String) (row : UserRow)
    (now : Int)
    (hfind : getUserByDiscordId db id = some row)
    (hlow : row.flags + 1 < 5) :
    getUserByDiscordId (modBlock db id now).2 id =
      some { row with flags := row.flags + 1 } ∧
    (∀ id2, id2 ≠ id →
      getUserByDiscordId (modBlock db id now).2 id2 =
        getUserByDiscordId db id2) := by
  have hkeyr : row.discord_id = id := getUserByDiscordId_key hfind
  have hnot : ¬ (row.flags + 1 ≥ 5) := by omega
  constructor
  · simp only [modBlock, modRead, hfind, UserRow.toJs, Option.getD_some,
      hnot, if_false]
    rw [find_upsert_at hkeyr]
    norm_num [applyDefaults]
  · intro id2 hne
    have hne2 : id2 ≠ row.discord_id := by rw [hkeyr]; exact hne
    simp only [modBlock, modRead, hfind, UserRow.toJs, Option.getD_some,
      hnot, if_false]
    exact getUserByDiscordId_upsert_other hne2

/-- The stored row in the C10 witness: fully populated fields. -/
def c10row : UserRow :=
  { discord_id := "g", roblox_id := some "9", roblox_username := some "G",
    tokens := 3, last_token_reset := 77, flags := 1, banned_until := some 123,
    linked_at := some 5 }

/-- C10 witness: the flag bump on "g" changes only `flags` (1 → 2) and the
lookup of another key is untouched. -/
theorem c10_frame_witness :
    getUserByDiscordId (modBlock [c10row] "g" 999).2 "g" =
      some { c10row with flags := c10row.flags + 1 } ∧
    getUserByDiscordId (modBlock [c10row] "g" 999).2 "other" =
      getUserByDiscordId [c10row] "other" :=
  ⟨(c10_frame [c10row] "g" c10row 999 (by decide) (by decide)).1,
   (c10_frame [c10row] "g" c10row 999 (by decide) (by decide)).2 "other"
     (by decide)⟩

end LineDevs
